import Mathlib

/-
Verification of the bucket-dashboard application (demo_app/app.py) against its
natural-language specification.

The embedding models the backend (an S3-compatible object store) as explicit
inputs: the listing call either fails (`none`) or returns the list of entries;
the per-object metadata lookup (`head_object`) is a function from keys to a
`HeadResult`; the body fetch (`get_object`) and the write (`put_object`) are
likewise explicit parameters.  All functions from the source are translated as
total Lean functions over these inputs.
-/

set_option autoImplicit false

namespace DemoApp

/-- One entry of the listing returned by `list_objects_v2` (`Contents`):
`Key`, `Size`, `LastModified`. -/
structure ListedObj where
  key : String
  size : Nat
  lastModified : String
  deriving DecidableEq, Repr

/-- Outcome of a `head_object` call on one key: the call raises an exception
(`failure`), or succeeds with the response dictionary, which may or may not
carry a `StorageClass` entry (`success none` models an absent field). -/
inductive HeadResult where
  | failure : HeadResult
  | success : Option String → HeadResult
  deriving DecidableEq, Repr

/-- One record of the inventory built by `get_bucket_info`:
`{Key, Size, LastModified, StorageClass}`. -/
structure ObjectRecord where
  key : String
  size : Nat
  lastModified : String
  storageClass : String
  deriving DecidableEq, Repr

/-- The triple returned by `get_bucket_info`: objects, total_bytes, sc_counts.
The Python dict `sc_counts` is modelled as an insertion-ordered association
list, matching dict iteration/update semantics. -/
structure BucketInfo where
  objects : List ObjectRecord
  total_bytes : Nat
  sc_counts : List (String × Nat)
  deriving DecidableEq, Repr

/-- `sc_counts.get(k, 0)`: value of key `k` in the association list, 0 when
absent. -/
def scGet (m : List (String × Nat)) (k : String) : Nat :=
  match m.find? (fun p => p.1 == k) with
  | some p => p.2
  | none => 0

/-- Update one entry of the dict in place: the entry with key `k` gets its
value incremented, every other entry is unchanged. -/
def bumpEntry (k : String) (p : String × Nat) : String × Nat :=
  if p.1 == k then (p.1, p.2 + 1) else p

/-- `sc_counts[k] = sc_counts.get(k, 0) + 1`: update the entry in place when
the key exists, otherwise append a fresh entry (Python dict insertion order). -/
def scBump (m : List (String × Nat)) (k : String) : List (String × Nat) :=
  if m.any (fun p => p.1 == k) then m.map (bumpEntry k) else m ++ [(k, 1)]

/-- The storage class resolved for one key, app.py lines 56-61: start from
`"STANDARD"`, try `head_object`; on success take `head.get('StorageClass',
'STANDARD')`, on exception keep the default. -/
def resolveClass (head : String → HeadResult) (key : String) : String :=
  match head key with
  | HeadResult.failure => "STANDARD"
  | HeadResult.success none => "STANDARD"
  | HeadResult.success (some sc) => sc

/-- Body of the `for obj in resp.get('Contents', [])` loop of
`get_bucket_info` (app.py lines 49-71): add the size to `total_bytes`,
resolve the storage class, tally it in `sc_counts`, append the record. -/
def infoStep (head : String → HeadResult) (acc : BucketInfo)
    (obj : ListedObj) : BucketInfo :=
  let sc := resolveClass head obj.key
  { objects := acc.objects ++ [⟨obj.key, obj.size, obj.lastModified, sc⟩]
    total_bytes := acc.total_bytes + obj.size
    sc_counts := scBump acc.sc_counts sc }

/-- `get_bucket_info` (app.py lines 36-76).  `listing = none` models
`list_objects_v2` raising (the outer `except` then returns the initial
accumulators); `listing = some contents` models a successful listing with
`resp.get('Contents', [])` = `contents`. -/
def get_bucket_info (listing : Option (List ListedObj))
    (head : String → HeadResult) : BucketInfo :=
  match listing with
  | none => ⟨[], 0, []⟩
  | some contents => contents.foldl (infoStep head) ⟨[], 0, []⟩

/-- The record that the loop of `get_bucket_info` builds for one listed entry. -/
def recordOf (head : String → HeadResult) (o : ListedObj) : ObjectRecord :=
  ⟨o.key, o.size, o.lastModified, resolveClass head o.key⟩

/-- Fold of `scBump` over a list of class labels, starting from the empty dict. -/
def tally (cs : List String) : List (String × Nat) :=
  cs.foldl scBump []

/-- The keys of the dict. -/
def scKeys (m : List (String × Nat)) : List String :=
  m.map Prod.fst

/-- Keys of the dict are pairwise distinct. -/
def NodupKeys (m : List (String × Nat)) : Prop :=
  (scKeys m).Nodup

lemma get_bucket_info_loop (head : String → HeadResult) (l : List ListedObj)
    (acc : BucketInfo) :
    l.foldl (infoStep head) acc =
    ⟨acc.objects ++ l.map (recordOf head),
     acc.total_bytes + (l.map (fun o => o.size)).sum,
     (l.map (fun o => resolveClass head o.key)).foldl scBump acc.sc_counts⟩ := by
  induction l generalizing acc with
  | nil => simp
  | cons o t ih =>
      simp only [List.foldl_cons, List.map_cons, List.sum_cons, ih]
      simp [infoStep, recordOf, Nat.add_assoc, Nat.add_comm, Nat.add_left_comm]

lemma get_bucket_info_some (l : List ListedObj) (head : String → HeadResult) :
    get_bucket_info (some l) head =
      ⟨l.map (recordOf head),
       (l.map (fun o => o.size)).sum,
       tally (l.map (fun o => resolveClass head o.key))⟩ := by
  simp [get_bucket_info, get_bucket_info_loop, tally]

lemma scGet_nil (k : String) : scGet [] k = 0 := rfl

lemma scGet_cons (a : String × Nat) (m : List (String × Nat)) (k : String) :
    scGet (a :: m) k = if a.1 == k then a.2 else scGet m k := by
  by_cases h : (a.1 == k) = true
  · simp [scGet, List.find?_cons_of_pos _ h, h]
  · simp [scGet, List.find?_cons_of_neg _ h, h]

lemma bumpEntry_fst (k : String) (p : String × Nat) :
    (bumpEntry k p).1 = p.1 := by
  unfold bumpEntry; split <;> rfl

lemma scGet_map_bump_self (m : List (String × Nat)) (k : String) :
    scGet (m.map (bumpEntry k)) k = scGet m k + (if (m.any (fun p => p.1 == k)) then 1 else 0) := by
  induction m with
  | nil => simp [scGet_nil]
  | cons a m ih =>
      by_cases hak : (a.1 == k) = true
      · simp [List.map_cons, scGet_cons, bumpEntry, hak, List.any_cons]
      · simp only [List.map_cons, List.any_cons, hak, Bool.false_or]
        rw [scGet_cons, scGet_cons]
        simp only [bumpEntry_fst, hak, Bool.false_eq_true, if_false, ih]

lemma scGet_map_bump_ne (m : List (String × Nat)) (k k2 : String) (h : k ≠ k2) :
    scGet (m.map (bumpEntry k)) k2 = scGet m k2 := by
  induction m with
  | nil => simp
  | cons a m ih =>
      simp only [List.map_cons]
      rw [scGet_cons, scGet_cons, bumpEntry_fst]
      by_cases hak2 : (a.1 == k2) = true
      · have ha : a.1 = k2 := by simpa using hak2
        have hne : (a.1 == k) = false := by
          simp only [ha, beq_eq_false_iff_ne]
          exact Ne.symm h
        simp [hak2, bumpEntry, hne]
      · simp [hak2, ih]

lemma scGet_append_ne (m : List (String × Nat)) (k k2 : String) (h : k ≠ k2) :
    scGet (m ++ [(k, 1)]) k2 = scGet m k2 := by
  induction m with
  | nil =>
      simp only [List.nil_append]
      rw [scGet_cons]
      have : ((k, 1).1 == k2) = false := by simpa using h
      simp [this, scGet_nil]
  | cons a m ih =>
      simp only [List.cons_append]
      rw [scGet_cons, scGet_cons, ih]

lemma scGet_eq_zero_of_not_mem (m : List (String × Nat)) (k : String)
    (h : (m.any (fun p => p.1 == k)) = false) : scGet m k = 0 := by
  induction m with
  | nil => rfl
  | cons a m ih =>
      simp only [List.any_cons, Bool.or_eq_false_iff] at h
      rw [scGet_cons, if_neg (by simp [h.1]), ih h.2]

lemma scGet_append_self (m : List (String × Nat)) (k : String)
    (h : (m.any (fun p => p.1 == k)) = false) : scGet (m ++ [(k, 1)]) k = 1 := by
  induction m with
  | nil => simp [scGet_cons]
  | cons a m ih =>
      simp only [List.any_cons, Bool.or_eq_false_iff] at h
      simp only [List.cons_append]
      rw [scGet_cons, if_neg (by simp [h.1]), ih h.2]

lemma scGet_scBump_self (m : List (String × Nat)) (k : String) :
    scGet (scBump m k) k = scGet m k + 1 := by
  unfold scBump
  by_cases hany : (m.any (fun p => p.1 == k)) = true
  · simp [hany, scGet_map_bump_self]
  · have hf : (m.any (fun p => p.1 == k)) = false := Bool.of_not_eq_true hany
    simp only [hany, Bool.false_eq_true, if_false]
    rw [scGet_append_self m k hf, scGet_eq_zero_of_not_mem m k hf]

lemma scGet_scBump_ne (m : List (String × Nat)) (k k2 : String) (h : k ≠ k2) :
    scGet (scBump m k) k2 = scGet m k2 := by
  unfold scBump
  by_cases hany : (m.any (fun p => p.1 == k)) = true
  · simp [hany, scGet_map_bump_ne m k k2 h]
  · simp [hany, scGet_append_ne m k k2 h]

lemma scKeys_map_bump (m : List (String × Nat)) (k : String) :
    scKeys (m.map (bumpEntry k)) = scKeys m := by
  unfold scKeys
  rw [List.map_map]
  exact List.map_congr_left (fun p _ => bumpEntry_fst k p)

lemma mem_scKeys_scBump (m : List (String × Nat)) (k k2 : String)
    (h : k2 ∈ scKeys (scBump m k)) : k2 ∈ scKeys m ∨ k2 = k := by
  unfold scBump at h
  by_cases hany : (m.any (fun p => p.1 == k)) = true
  · rw [if_pos hany, scKeys_map_bump] at h
    exact Or.inl h
  · rw [if_neg hany] at h
    unfold scKeys at h
    rw [List.map_append, List.mem_append] at h
    rcases h with h | h
    · exact Or.inl h
    · simp at h
      exact Or.inr h

lemma nodupKeys_scBump (m : List (String × Nat)) (k : String)
    (h : NodupKeys m) : NodupKeys (scBump m k) := by
  unfold NodupKeys scBump
  by_cases hany : (m.any (fun p => p.1 == k)) = true
  · rw [if_pos hany, scKeys_map_bump]
    exact h
  · rw [if_neg hany]
    unfold scKeys
    rw [List.map_append, List.nodup_append]
    refine ⟨h, by simp, ?_⟩
    intro x hx hx2
    simp only [List.map_cons, List.map_nil, List.mem_singleton] at hx2
    subst hx2
    have hall := List.any_eq_false.mp (Bool.of_not_eq_true hany)
    rcases List.mem_map.mp hx with ⟨p, hp, hpk⟩
    have hfalse := hall p hp
    rw [hpk] at hfalse
    simp at hfalse

lemma map_bump_of_no_key (m : List (String × Nat)) (k : String)
    (h : (m.any (fun p => p.1 == k)) = false) : m.map (bumpEntry k) = m := by
  have hall := List.any_eq_false.mp h
  calc m.map (bumpEntry k) = m.map id := by
        refine List.map_congr_left (fun p hp => ?_)
        unfold bumpEntry
        rw [if_neg (by simp [hall p hp])]
        rfl
    _ = m := List.map_id m

lemma valSum_map_bump (m : List (String × Nat)) (k : String)
    (hnd : NodupKeys m) (hany : (m.any (fun p => p.1 == k)) = true) :
    ((m.map (bumpEntry k)).map Prod.snd).sum = (m.map Prod.snd).sum + 1 := by
  induction m with
  | nil => simp at hany
  | cons a m ih =>
      unfold NodupKeys scKeys at hnd
      simp only [List.map_cons, List.nodup_cons] at hnd
      by_cases hak : (a.1 == k) = true
      · have ha : a.1 = k := by simpa using hak
        have hnk : (m.any (fun p => p.1 == k)) = false := by
          rw [List.any_eq_false]
          intro p hp hpk
          have hpk2 : p.1 = k := by simpa using hpk
          exact hnd.1 (List.mem_map.mpr ⟨p, hp, hpk2.trans ha.symm⟩)
        simp only [List.map_cons, List.sum_cons, map_bump_of_no_key m k hnk]
        simp [bumpEntry, hak, Nat.add_assoc, Nat.add_comm, Nat.add_left_comm]
      · have hm : (m.any (fun p => p.1 == k)) = true := by
          simpa [List.any_cons, hak] using hany
        simp only [List.map_cons, List.sum_cons, bumpEntry, hak,
          Bool.false_eq_true, if_false]
        rw [ih hnd.2 hm, Nat.add_assoc]

lemma valSum_scBump (m : List (String × Nat)) (k : String) (hnd : NodupKeys m) :
    ((scBump m k).map Prod.snd).sum = (m.map Prod.snd).sum + 1 := by
  unfold scBump
  by_cases hany : (m.any (fun p => p.1 == k)) = true
  · rw [if_pos hany]
    exact valSum_map_bump m k hnd hany
  · rw [if_neg hany, List.map_append, List.sum_append]
    simp

lemma nodupKeys_foldl (cs : List String) (m : List (String × Nat))
    (h : NodupKeys m) : NodupKeys (cs.foldl scBump m) := by
  induction cs generalizing m with
  | nil => exact h
  | cons c cs ih => exact ih (scBump m c) (nodupKeys_scBump m c h)

lemma scGet_foldl (cs : List String) (m : List (String × Nat)) (k : String) :
    scGet (cs.foldl scBump m) k = scGet m k + cs.count k := by
  induction cs generalizing m with
  | nil => simp
  | cons c cs ih =>
      rw [List.foldl_cons, ih]
      by_cases hck : c = k
      · subst hck
        rw [scGet_scBump_self]
        simp [List.count_cons, Nat.add_assoc, Nat.add_comm, Nat.add_left_comm]
      · rw [scGet_scBump_ne m c k hck]
        simp [List.count_cons, fun h => hck (by simpa using h)]

lemma valSum_foldl (cs : List String) (m : List (String × Nat))
    (h : NodupKeys m) :
    ((cs.foldl scBump m).map Prod.snd).sum = (m.map Prod.snd).sum + cs.length := by
  induction cs generalizing m with
  | nil => simp
  | cons c cs ih =>
      rw [List.foldl_cons, ih (scBump m c) (nodupKeys_scBump m c h),
          valSum_scBump m c h]
      simp [Nat.add_assoc, Nat.add_comm, Nat.add_left_comm]

lemma mem_scKeys_foldl (cs : List String) (m : List (String × Nat)) (k : String)
    (h : k ∈ scKeys (cs.foldl scBump m)) : k ∈ scKeys m ∨ k ∈ cs := by
  induction cs generalizing m with
  | nil => exact Or.inl h
  | cons c cs ih =>
      rw [List.foldl_cons] at h
      rcases ih (scBump m c) h with h2 | h2
      · rcases mem_scKeys_scBump m c k h2 with h3 | h3
        · exact Or.inl h3
        · exact Or.inr (by simp [h3])
      · exact Or.inr (by simp [h2])

lemma scGet_tally (cs : List String) (k : String) :
    scGet (tally cs) k = cs.count k := by
  rw [tally, scGet_foldl, scGet_nil]
  exact Nat.zero_add _

lemma valSum_tally (cs : List String) :
    ((tally cs).map Prod.snd).sum = cs.length := by
  rw [tally, valSum_foldl cs [] (by simp [NodupKeys, scKeys])]
  simp

lemma mem_scKeys_tally (cs : List String) (k : String)
    (h : k ∈ scKeys (tally cs)) : k ∈ cs := by
  rcases mem_scKeys_foldl cs [] k h with h2 | h2
  · simp [scKeys] at h2
  · exact h2

/-- Round half to even on rationals: the idealization of Python `round` on the
exact value (Python rounds the nearest float, ties to even). -/
def roundHalfEven (q : ℚ) : ℤ :=
  let f := ⌊q⌋
  let r := q - (f : ℚ)
  if r < 1/2 then f
  else if 1/2 < r then f + 1
  else if f % 2 = 0 then f else f + 1

/-- `round(q, 2)`: round to two decimal places. -/
def pyround2 (q : ℚ) : ℚ :=
  (roundHalfEven (q * 100) : ℚ) / 100

/-- `used_mb = round(total_bytes / (1024 * 1024), 2)` (app.py lines 114 and
177, identical in the `index` and `api_summary` routes). -/
def used_mb (total_bytes : Nat) : ℚ :=
  pyround2 ((total_bytes : ℚ) / (1024 * 1024))

/-- `usage_percentage = min((used_mb / BUCKET_QUOTA_MB) * 100, 100)` (app.py
lines 115 and 178, identical in the `index` and `api_summary` routes);
`quota` is the configured `BUCKET_QUOTA_MB`. -/
def usage_percentage (total_bytes : Nat) (quota : ℚ) : ℚ :=
  min (used_mb total_bytes / quota * 100) 100

/-- Characters kept by the sanitizer: ASCII-style letters and digits, dot,
dash, underscore. -/
def safeChar (c : Char) : Bool :=
  c.isAlphanum || c == '.' || c == '-' || c == '_'

/-- Modelled from the spec: `werkzeug.utils.secure_filename`, the sanitizer
applied to the uploaded display name (third-party library code, not present
under src/).  Per the spec, "sanitization strips path separators and unsafe
characters" from the display name; modelled as keeping only safe characters. -/
def secure_filename (name : String) : String :=
  ⟨name.data.filter safeChar⟩

/-- The upload request parsed from the form: either no `file` part at all, or
a file part with its display name (`upfile.filename`) and content bytes. -/
inductive UploadRequest where
  | noFilePart : UploadRequest
  | filePart (filename : String) (content : List Nat) : UploadRequest
  deriving DecidableEq, Repr

/-- Outcome of the `put_object` backend call: success, or an exception with
message `msg`. -/
inductive PutOutcome where
  | ok : PutOutcome
  | error (msg : String) : PutOutcome
  deriving DecidableEq, Repr

/-- Observable outcome of the POST branch of `index`: the sequence of
`put_object` calls issued (key and body), the flashed message with its
category, and the redirect target (`request.url` or the `index` view). -/
structure UploadResult where
  putCalls : List (String × List Nat)
  flashMessage : String
  flashCategory : String
  redirectTo : String
  deriving DecidableEq, Repr

/-- The apostrophe character used inside flash messages. -/
def squote : String :=
  String.singleton (Char.ofNat 39)

/-- The POST branch of `index` (app.py lines 90-110).  `now` is the UTC
timestamp `datetime.utcnow().strftime('%Y%m%d%H%M%S')`; the trailing
underscore of the strftime format appears in the key construction.  `put`
gives the backend outcome for a `put_object` call. -/
def handleUpload (now : String) (req : UploadRequest)
    (put : String → List Nat → PutOutcome) : UploadResult :=
  match req with
  | UploadRequest.noFilePart =>
      ⟨[], "No file selected.", "warning", "request.url"⟩
  | UploadRequest.filePart rawName content =>
      if rawName = "" then
        ⟨[], "No file selected.", "warning", "request.url"⟩
      else
        let filename := secure_filename rawName
        let s3_key := now ++ "_" ++ filename
        match put s3_key content with
        | PutOutcome.ok =>
            ⟨[(s3_key, content)],
             "File " ++ squote ++ filename ++ squote ++ " uploaded successfully!",
             "success", "index"⟩
        | PutOutcome.error e =>
            ⟨[(s3_key, content)], "Upload failed: " ++ e, "danger", "index"⟩

/-- Outcome of the `get_object` backend call: an exception with message
`err`, or success with the declared `ContentType` and the body bytes. -/
inductive GetObjectResult where
  | failure (err : String) : GetObjectResult
  | success (contentType : String) (body : List Nat) : GetObjectResult
  deriving DecidableEq, Repr

/-- Body of the response of the `preview` route: the raw text bytes returned
inline (decoded as lossy UTF-8 by the presentation layer), the HTML fragment
referencing the backend public URL of `key`, or a plain message. -/
inductive PreviewBody where
  | textBody (bytes : List Nat) : PreviewBody
  | imageHtml (key : String) : PreviewBody
  | message (s : String) : PreviewBody
  deriving DecidableEq, Repr

/-- A response of the `preview` route: body plus HTTP status (Flask returns
200 when no explicit status is given). -/
structure PreviewResponse where
  body : PreviewBody
  status : Nat
  deriving DecidableEq, Repr

/-- Python `s.startswith(t)`: the first `len(t)` characters of `s` are `t`. -/
def strStarts (s t : String) : Bool :=
  s.data.take t.data.length == t.data

/-- Python `s.endswith(t)`: the last `len(t)` characters of `s` are `t`. -/
def strEnds (s t : String) : Bool :=
  s.data.drop (s.data.length - t.data.length) == t.data

/-- Python `s.lower()` (ASCII case folding). -/
def strLower (s : String) : String :=
  ⟨s.data.map Char.toLower⟩

/-- `key.lower().endswith(('.txt', '.log'))`. -/
def isTextKey (key : String) : Bool :=
  strEnds (strLower key) ".txt" || strEnds (strLower key) ".log"

/-- `key.lower().endswith(('.png', '.jpg', '.jpeg', '.gif'))`. -/
def isImageKey (key : String) : Bool :=
  strEnds (strLower key) ".png" || strEnds (strLower key) ".jpg" ||
  strEnds (strLower key) ".jpeg" || strEnds (strLower key) ".gif"

/-- The `preview` route (app.py lines 128-156): on `get_object` failure the
`except` branch returns the error message with status 500; on success, text
content (by content type or extension) is returned inline with status 200, a
known image extension yields the image-referencing HTML fragment with status
200, and anything else yields the "not available" message with status 400. -/
def preview (key : String) (got : GetObjectResult) : PreviewResponse :=
  match got with
  | GetObjectResult.failure e =>
      ⟨PreviewBody.message ("Error previewing file: " ++ e), 500⟩
  | GetObjectResult.success contentType data =>
      if strStarts contentType "text" || isTextKey key then
        ⟨PreviewBody.textBody data, 200⟩
      else if isImageKey key then
        ⟨PreviewBody.imageHtml key, 200⟩
      else
        ⟨PreviewBody.message "Preview not available for this file type.", 400⟩

lemma objects_eq (l : List ListedObj) (head : String → HeadResult) :
    (get_bucket_info (some l) head).objects = l.map (recordOf head) := by
  rw [get_bucket_info_some]

lemma total_bytes_eq (l : List ListedObj) (head : String → HeadResult) :
    (get_bucket_info (some l) head).total_bytes = (l.map (fun o => o.size)).sum := by
  rw [get_bucket_info_some]

lemma sc_counts_eq (l : List ListedObj) (head : String → HeadResult) :
    (get_bucket_info (some l) head).sc_counts =
      tally (l.map (fun o => resolveClass head o.key)) := by
  rw [get_bucket_info_some]

lemma scGet_counts (l : List ListedObj) (head : String → HeadResult) (c : String) :
    scGet (get_bucket_info (some l) head).sc_counts c =
      ((get_bucket_info (some l) head).objects.filter
        (fun r => r.storageClass == c)).length := by
  rw [sc_counts_eq, objects_eq, scGet_tally, List.filter_map, List.length_map,
      ← List.countP_eq_length_filter, List.count, List.countP_map]
  rfl

lemma roundHalfEven_nonneg (q : ℚ) (h : 0 ≤ q) : 0 ≤ roundHalfEven q := by
  have hf : (0 : ℤ) ≤ ⌊q⌋ := Int.floor_nonneg.mpr h
  simp only [roundHalfEven]
  split
  · exact hf
  · split
    · omega
    · split <;> omega

lemma pyround2_nonneg (q : ℚ) (h : 0 ≤ q) : 0 ≤ pyround2 q := by
  unfold pyround2
  have h100 : (0 : ℚ) ≤ q * 100 := by positivity
  have := roundHalfEven_nonneg (q * 100) h100
  have hcast : (0 : ℚ) ≤ (roundHalfEven (q * 100) : ℚ) := by exact_mod_cast this
  positivity

/-- C1: for every listing with N entries and every behavior of the per-object
storage-class lookup — including the one where every lookup fails —
`get_bucket_info` returns exactly one `ObjectRecord` per listed entry, in
listing order: the objects sequence is the entrywise image of the listing,
so it has exactly N entries and carries the listed keys in listing order. -/
theorem C1_one_record_per_listed_entry
    (l : List ListedObj) (head : String → HeadResult) :
    (get_bucket_info (some l) head).objects = l.map (recordOf head) ∧
    (get_bucket_info (some l) head).objects.length = l.length ∧
    (get_bucket_info (some l) head).objects.map (fun r => r.key)
      = l.map (fun o => o.key) ∧
    (get_bucket_info (some l) (fun _ => HeadResult.failure)).objects.length
      = l.length := by
  refine ⟨objects_eq l head, ?_, ?_, ?_⟩
  · rw [objects_eq, List.length_map]
  · rw [objects_eq, List.map_map]
    rfl
  · rw [objects_eq, List.length_map]

/-- C2: a listed entry whose `head_object` lookup raises is still recorded,
at its listing position, with storage class `"STANDARD"`, it is counted under
`STANDARD` in the histogram, and the aggregation still produces a record for
every listed entry (the failure aborts nothing). -/
theorem C2_lookup_failure_defaults_and_continues
    (l : List ListedObj) (head : String → HeadResult) (i : Nat)
    (hi : i < l.length)
    (hfail : head (l.get ⟨i, hi⟩).key = HeadResult.failure) :
    ∃ hj : i < (get_bucket_info (some l) head).objects.length,
      ((get_bucket_info (some l) head).objects.get ⟨i, hj⟩).storageClass
        = "STANDARD" ∧
      (get_bucket_info (some l) head).objects.length = l.length ∧
      0 < scGet (get_bucket_info (some l) head).sc_counts "STANDARD" := by
  have hlen : (get_bucket_info (some l) head).objects.length = l.length := by
    rw [objects_eq, List.length_map]
  rw [List.get_eq_getElem] at hfail
  refine ⟨hlen ▸ hi, ?_, hlen, ?_⟩
  · have hrec : (get_bucket_info (some l) head).objects.get ⟨i, hlen ▸ hi⟩
        = recordOf head (l.get ⟨i, hi⟩) := by
      simp [objects_eq, List.get_eq_getElem, List.getElem_map]
    rw [hrec]
    simp [recordOf, resolveClass, List.get_eq_getElem, hfail]
  · rw [sc_counts_eq, scGet_tally, List.count_pos_iff]
    refine List.mem_map.mpr ⟨l.get ⟨i, hi⟩, List.get_mem l i hi, ?_⟩
    simp [resolveClass, List.get_eq_getElem, hfail]

/-- C2 witness: a one-entry listing whose only lookup fails. -/
theorem C2_lookup_failure_defaults_and_continues_witness :
    ∃ hj : 0 < (get_bucket_info (some [⟨"a", 5, "t0"⟩])
        (fun _ => HeadResult.failure)).objects.length,
      ((get_bucket_info (some [⟨"a", 5, "t0"⟩])
          (fun _ => HeadResult.failure)).objects.get ⟨0, hj⟩).storageClass
        = "STANDARD" ∧
      (get_bucket_info (some [⟨"a", 5, "t0"⟩])
          (fun _ => HeadResult.failure)).objects.length
        = ([⟨"a", 5, "t0"⟩] : List ListedObj).length ∧
      0 < scGet (get_bucket_info (some [⟨"a", 5, "t0"⟩])
          (fun _ => HeadResult.failure)).sc_counts "STANDARD" :=
  C2_lookup_failure_defaults_and_continues [⟨"a", 5, "t0"⟩]
    (fun _ => HeadResult.failure) 0 (by decide) rfl

/-- C3: when the listing call itself fails, `get_bucket_info` raises nothing
(it is a total function of the failure case) and returns the empty result:
no objects, zero total bytes, empty storage-class counts. -/
theorem C3_listing_failure_yields_empty (head : String → HeadResult) :
    get_bucket_info none head = ⟨[], 0, []⟩ := rfl

/-- C4: for every aggregation result (listing failed or not), `total_bytes`
is exactly the sum of the `size` fields of the returned records, as natural
numbers, with no rounding. -/
theorem C4_total_bytes_is_exact_sum
    (listing : Option (List ListedObj)) (head : String → HeadResult) :
    (get_bucket_info listing head).total_bytes =
      ((get_bucket_info listing head).objects.map (fun r => r.size)).sum := by
  cases listing with
  | none => rfl
  | some l =>
      rw [total_bytes_eq, objects_eq, List.map_map]
      rfl

/-- C5: the histogram maps each class label to the number of returned records
bearing that label, every key of the histogram is the class of at least one
returned record, and the histogram values sum to the number of listed
entries. -/
theorem C5_histogram_partitions_objects
    (l : List ListedObj) (head : String → HeadResult) :
    (∀ c : String,
      scGet (get_bucket_info (some l) head).sc_counts c =
        ((get_bucket_info (some l) head).objects.filter
          (fun r => r.storageClass == c)).length) ∧
    scKeys (get_bucket_info (some l) head).sc_counts ⊆
      (get_bucket_info (some l) head).objects.map (fun r => r.storageClass) ∧
    ((get_bucket_info (some l) head).sc_counts.map Prod.snd).sum = l.length := by
  refine ⟨scGet_counts l head, ?_, ?_⟩
  · intro c hc
    rw [sc_counts_eq] at hc
    have hmem := mem_scKeys_tally _ c hc
    rw [objects_eq, List.map_map]
    rcases List.mem_map.mp hmem with ⟨o, ho, hoc⟩
    exact List.mem_map.mpr ⟨o, ho, hoc⟩
  · rw [sc_counts_eq, valSum_tally, List.length_map]

/-- C5 witness: a two-entry listing with one resolved class and one failing
lookup; the histogram values sum to 2. -/
theorem C5_histogram_partitions_objects_witness :
    ((get_bucket_info (some [⟨"a", 1, "t0"⟩, ⟨"b", 2, "t1"⟩])
        (fun k => if k = "a" then HeadResult.success (some "COLD")
                  else HeadResult.failure)).sc_counts.map Prod.snd).sum
      = ([⟨"a", 1, "t0"⟩, ⟨"b", 2, "t1"⟩] : List ListedObj).length :=
  (C5_histogram_partitions_objects [⟨"a", 1, "t0"⟩, ⟨"b", 2, "t1"⟩]
    (fun k => if k = "a" then HeadResult.success (some "COLD")
              else HeadResult.failure)).2.2

/-- C6: for every total byte count and every positive configured quota, the
usage percentage computed by the read endpoints equals
`min(round(totalBytes / (1024*1024), 2) / quota * 100, 100)` and lies in
[0, 100], even when usage exceeds the quota. -/
theorem C6_usage_percentage_in_range (total_bytes : Nat) (quota : ℚ)
    (hq : 0 < quota) :
    usage_percentage total_bytes quota =
      min (pyround2 ((total_bytes : ℚ) / (1024 * 1024)) / quota * 100) 100 ∧
    0 ≤ usage_percentage total_bytes quota ∧
    usage_percentage total_bytes quota ≤ 100 := by
  refine ⟨rfl, ?_, ?_⟩
  · have h0 : (0 : ℚ) ≤ (total_bytes : ℚ) / (1024 * 1024) := by positivity
    have h1 : 0 ≤ used_mb total_bytes := pyround2_nonneg _ h0
    have h2 : 0 ≤ used_mb total_bytes / quota * 100 :=
      mul_nonneg (div_nonneg h1 hq.le) (by norm_num)
    unfold usage_percentage
    exact le_min h2 (by norm_num)
  · unfold usage_percentage
    exact min_le_right _ _

/-- C6 witness: 15 MB of usage against a 10 MB quota stays within [0, 100]. -/
theorem C6_usage_percentage_in_range_witness :
    0 < (10 : ℚ) ∧ 0 ≤ usage_percentage 15728640 10 ∧
      usage_percentage 15728640 10 ≤ 100 :=
  ⟨by norm_num, (C6_usage_percentage_in_range 15728640 10 (by norm_num)).2⟩

/-- C7: with a 14-digit UTC timestamp, a nonempty display name leads to
exactly one `put_object` call, whose key is the timestamp prefix
`YYYYMMDDHHMMSS_` followed by the sanitized display name; the key contains
no path-separator character (`/` or backslash), so it cannot address outside
the bucket namespace. -/
theorem C7_upload_key_timestamped_and_safe
    (now rawName : String) (content : List Nat)
    (put : String → List Nat → PutOutcome)
    (_hlen : now.length = 14) (hnow : ∀ c ∈ now.data, c.isDigit = true)
    (hname : rawName ≠ "") :
    (handleUpload now (UploadRequest.filePart rawName content) put).putCalls
      = [(now ++ "_" ++ secure_filename rawName, content)] ∧
    ∀ c ∈ (now ++ "_" ++ secure_filename rawName).data,
      c ≠ '/' ∧ c ≠ '\\' := by
  constructor
  · cases hp : put (now ++ "_" ++ secure_filename rawName) content <;>
      simp [handleUpload, hname, hp]
  · intro c hc
    rw [String.data_append, String.data_append] at hc
    rcases List.mem_append.mp hc with hc1 | hc2
    · rcases List.mem_append.mp hc1 with hnowc | hunder
      · have hd := hnow c hnowc
        constructor <;> intro he <;> rw [he] at hd <;> exact absurd hd (by decide)
      · have hu : ("_" : String).data = ['_'] := by decide
        rw [hu] at hunder
        have hce : c = '_' := by simpa using hunder
        subst hce
        exact ⟨by decide, by decide⟩
    · have hmem : c ∈ rawName.data.filter safeChar := hc2
      have hsafe : safeChar c = true := (List.mem_filter.mp hmem).2
      constructor <;> intro he <;> rw [he] at hsafe <;>
        exact absurd hsafe (by decide)

/-- C7 witness: the display name `../../etc/passwd` yields a key with no
path separator. -/
theorem C7_upload_key_timestamped_and_safe_witness :
    (handleUpload "20250101120000"
        (UploadRequest.filePart "../../etc/passwd" [104, 105])
        (fun _ _ => PutOutcome.ok)).putCalls
      = [("20250101120000" ++ "_" ++ secure_filename "../../etc/passwd",
          [104, 105])] ∧
    ∀ c ∈ ("20250101120000" ++ "_" ++
        secure_filename "../../etc/passwd").data, c ≠ '/' ∧ c ≠ '\\' :=
  C7_upload_key_timestamped_and_safe "20250101120000" "../../etc/passwd"
    [104, 105] (fun _ _ => PutOutcome.ok) (by decide) (by decide) (by decide)

/-- C8: a preview whose object lookup fails returns the error message with
status 500 — an error indication, not a default value — and a successful
lookup of a non-text, non-image object returns the "preview not available"
message with status 400, a failure status distinct from the 500 of the error
case and from the 200 of a served preview. -/
theorem C8_preview_failures_are_surfaced
    (key e contentType : String) (data : List Nat)
    (hct : strStarts contentType "text" = false)
    (htxt : isTextKey key = false) (himg : isImageKey key = false) :
    preview key (GetObjectResult.failure e) =
      ⟨PreviewBody.message ("Error previewing file: " ++ e), 500⟩ ∧
    preview key (GetObjectResult.success contentType data) =
      ⟨PreviewBody.message "Preview not available for this file type.", 400⟩ ∧
    (preview key (GetObjectResult.success contentType data)).status ≠
      (preview key (GetObjectResult.failure e)).status ∧
    (preview key (GetObjectResult.failure e)).status ≠ 200 ∧
    (preview key (GetObjectResult.success contentType data)).status ≠ 200 := by
  have h2 : preview key (GetObjectResult.success contentType data) =
      ⟨PreviewBody.message "Preview not available for this file type.", 400⟩ := by
    simp [preview, hct, htxt, himg]
  refine ⟨rfl, h2, ?_, ?_, ?_⟩
  · rw [h2]
    simp [preview]
  · simp [preview]
  · rw [h2]
    simp

/-- C8 witness: a binary object (`data.bin`, content type
`application/octet-stream`). -/
theorem C8_preview_failures_are_surfaced_witness :
    preview "data.bin" (GetObjectResult.failure "boom") =
      ⟨PreviewBody.message ("Error previewing file: " ++ "boom"), 500⟩ ∧
    preview "data.bin"
        (GetObjectResult.success "application/octet-stream" [0, 1]) =
      ⟨PreviewBody.message "Preview not available for this file type.", 400⟩ ∧
    (preview "data.bin"
        (GetObjectResult.success "application/octet-stream" [0, 1])).status ≠
      (preview "data.bin" (GetObjectResult.failure "boom")).status ∧
    (preview "data.bin" (GetObjectResult.failure "boom")).status ≠ 200 ∧
    (preview "data.bin"
        (GetObjectResult.success "application/octet-stream" [0, 1])).status
      ≠ 200 :=
  C8_preview_failures_are_surfaced "data.bin" "boom"
    "application/octet-stream" [0, 1] (by decide) (by decide) (by decide)

/-- C9: a lookup that succeeds but returns no `StorageClass` field resolves
to `"STANDARD"`: the object is recorded with class `"STANDARD"`, counted
under `STANDARD`, and the whole aggregation output is identical to the one
obtained when that same lookup fails outright. -/
theorem C9_missing_field_indistinguishable_from_failure
    (l : List ListedObj) (head head2 : String → HeadResult) (k : String)
    (h1 : head k = HeadResult.success none)
    (h2 : head2 k = HeadResult.failure)
    (hagree : ∀ k2, k2 ≠ k → head k2 = head2 k2) :
    resolveClass head k = "STANDARD" ∧
    (∀ o ∈ l, o.key = k →
      recordOf head o = ⟨o.key, o.size, o.lastModified, "STANDARD"⟩ ∧
      0 < scGet (get_bucket_info (some l) head).sc_counts "STANDARD") ∧
    get_bucket_info (some l) head = get_bucket_info (some l) head2 := by
  have hstd : resolveClass head k = "STANDARD" := by
    simp [resolveClass, h1]
  refine ⟨hstd, ?_, ?_⟩
  · intro o ho hok
    constructor
    · unfold recordOf
      rw [hok, hstd]
    · rw [sc_counts_eq, scGet_tally, List.count_pos_iff]
      refine List.mem_map.mpr ⟨o, ho, ?_⟩
      rw [hok, hstd]
  · have hres : ∀ k2, resolveClass head k2 = resolveClass head2 k2 := by
      intro k2
      by_cases hk : k2 = k
      · subst hk
        simp [resolveClass, h1, h2]
      · unfold resolveClass
        rw [hagree k2 hk]
    rw [get_bucket_info_some, get_bucket_info_some]
    have hrec : l.map (recordOf head) = l.map (recordOf head2) :=
      List.map_congr_left (fun o _ => by unfold recordOf; rw [hres o.key])
    have hcls : l.map (fun o => resolveClass head o.key)
        = l.map (fun o => resolveClass head2 o.key) :=
      List.map_congr_left (fun o _ => hres o.key)
    rw [hrec, hcls]

/-- C9 witness: one object whose head succeeds without `StorageClass` versus
one whose head fails; the aggregations coincide. -/
theorem C9_missing_field_indistinguishable_from_failure_witness :
    get_bucket_info (some [⟨"a", 3, "t0"⟩])
        (fun k2 => if k2 = "a" then HeadResult.success none
                   else HeadResult.failure)
      = get_bucket_info (some [⟨"a", 3, "t0"⟩])
        (fun _ => HeadResult.failure) :=
  (C9_missing_field_indistinguishable_from_failure [⟨"a", 3, "t0"⟩]
    (fun k2 => if k2 = "a" then HeadResult.success none
               else HeadResult.failure)
    (fun _ => HeadResult.failure) "a" (by decide) rfl
    (fun k2 hk => if_neg hk)).2.2

/-- C10: a POST whose form carries no file part, or whose display name is
empty, issues no `put_object` call — the backend state is unchanged — and
flashes the warning "No file selected.", redirecting back to the request
URL. -/
theorem C10_missing_file_writes_nothing
    (now : String) (put : String → List Nat → PutOutcome) (req : UploadRequest)
    (h : req = UploadRequest.noFilePart ∨
         ∃ content, req = UploadRequest.filePart "" content) :
    (handleUpload now req put).putCalls = [] ∧
    (handleUpload now req put).flashMessage = "No file selected." ∧
    (handleUpload now req put).flashCategory = "warning" ∧
    (handleUpload now req put).redirectTo = "request.url" := by
  rcases h with h | ⟨content, h⟩ <;> subst h <;> simp [handleUpload]

/-- C10 witness: a POST with no file part. -/
theorem C10_missing_file_writes_nothing_witness :
    (handleUpload "20250101120000" UploadRequest.noFilePart
        (fun _ _ => PutOutcome.ok)).putCalls = [] ∧
    (handleUpload "20250101120000" UploadRequest.noFilePart
        (fun _ _ => PutOutcome.ok)).flashMessage = "No file selected." ∧
    (handleUpload "20250101120000" UploadRequest.noFilePart
        (fun _ _ => PutOutcome.ok)).flashCategory = "warning" ∧
    (handleUpload "20250101120000" UploadRequest.noFilePart
        (fun _ _ => PutOutcome.ok)).redirectTo = "request.url" :=
  C10_missing_file_writes_nothing "20250101120000" (fun _ _ => PutOutcome.ok)
    UploadRequest.noFilePart (Or.inl rfl)

end DemoApp
